import Mathlib

/-!
Verification of the networking core of the Linux-Shell chat service
(src/server_client: socket.c, chat_helpers.c, server.c, client.c).

The development is a shallow embedding: buffers are lists of byte values
(as naturals), the transport is an oracle describing what read(2)/write(2)
would report for each descriptor, and the C loops become structural or
fuel-indexed Lean functions.  Fuel-indexed loops return none when the fuel
runs out, so nontermination of a loop is expressed as: for every fuel the
run returns none.
-/

namespace LinuxShellChat

/-- MAX_USER_MSG from socket.h: the maximum user payload in bytes. -/
def MAX_USER_MSG : Nat := 128

/-- MAX_PROTO_MSG from socket.h: payload plus the 2-byte CRLF terminator. -/
def MAX_PROTO_MSG : Nat := 130

/-- BUF_SIZE from socket.h: protocol message plus one byte for the NUL. -/
def BUF_SIZE : Nat := 131

/-- find_network_newline from socket.c: scan the first inbuf bytes for the
pair CR LF and return one plus the index of the LF; none models the C
return value -1 (not found).  The valid region of the C buffer is exactly
the list. -/
def find_network_newline : List Nat → Option Nat
  | b1 :: b2 :: rest =>
    if b1 = 13 ∧ b2 = 10 then some 2
    else (find_network_newline (b2 :: rest)).map (· + 1)
  | _ => none

/-- One outcome of the read(2) call inside read_from_socket: a transport
error (-1), end of stream (0 bytes), or a chunk of delivered bytes. -/
inductive ReadEv where
  | chunk (data : List Nat)
  | closed
  | rerr
deriving DecidableEq

/-- read_from_socket from socket.c.  The C function reads into
buf + inbuf at most BUF_SIZE - inbuf bytes, so a delivered chunk is
truncated to the remaining capacity exactly as the kernel would do for
that count argument.  Returns the C result code and the new buffer:
0 = a CRLF-terminated message is buffered, 1 = socket closed,
2 = partial message, -1 = read error or maximum message size exceeded. -/
def read_from_socket (ev : ReadEv) (buf : List Nat) : Int × List Nat :=
  if BUF_SIZE ≤ buf.length then (-1, buf)
  else
    match ev with
    | .rerr => (-1, buf)
    | .closed => (1, buf)
    | .chunk data =>
      let d := data.take (BUF_SIZE - buf.length)
      let buf2 := buf ++ d
      if d.length = 0 then (1, buf2)
      else
        match find_network_newline buf2 with
        | some crlf =>
          if crlf < BUF_SIZE then (0, buf2)
          else if BUF_SIZE ≤ buf2.length then (-1, buf2) else (2, buf2)
        | none =>
          if BUF_SIZE ≤ buf2.length then (-1, buf2) else (2, buf2)

/-- get_message from socket.c: pop the first CRLF-terminated message
(terminator included, as the C memcpy copies crlf bytes) and shift the
remaining bytes to the front of the buffer; none models the C error
return 1 (no complete message buffered). -/
def get_message (src : List Nat) : Option (List Nat × List Nat) :=
  match find_network_newline src with
  | none => none
  | some crlf => some (src.take crlf, src.drop crlf)

/-- Repeated calls of read_from_socket over a sequence of delivered
chunks, threading the buffer; returns the list of result codes and the
final buffer. -/
def runReads : List (List Nat) → List Nat → List Int × List Nat
  | [], buf => ([], buf)
  | c :: cs, buf =>
    let r := read_from_socket (.chunk c) buf
    let rest := runReads cs r.2
    (r.1 :: rest.1, rest.2)

/-- The 128-byte delivery of testable property one: 126 letter-A bytes
followed by CRLF. -/
def msgA : List Nat := List.replicate 126 65 ++ [13, 10]

/-- struct client_sock from chat_helpers.h, restricted to the fields the
event loop reads: the descriptor and the receive buffer (inbuf is the
buffer's length; the unused state field is dropped). -/
structure ClientC where
  sock_fd : Nat
  buf : List Nat
deriving DecidableEq

/-- The descriptor bookkeeping of server(): client_count, the watched
fd_set all_fds, and the set of descriptors that have been close(2)d. -/
structure FdSt where
  count : Int
  fds : List Nat
  closedL : List Nat
deriving DecidableEq

/-- _remove_client from server.c:247: decrement client_count, FD_CLR the
descriptor from all_fds, and close it.  Note that it does not touch the
clients linked list and frees nothing. -/
def _remove_client (st : FdSt) (fd : Nat) : FdSt :=
  { count := st.count - 1, fds := st.fds.erase fd, closedL := fd :: st.closedL }

/-- Result code of write_to_socket (socket.c:121) for descriptor fd.
write(2) on a closed descriptor fails with EBADF, making write_to_socket
return 1; for an open descriptor the peer's behaviour is abstracted by
the oracle wr (0 = fully written, 1 = write error, 2 = zero-length write,
i.e. peer disconnected). -/
def write_to_socket_code (st : FdSt) (wr : Nat → Nat) (fd : Nat) : Nat :=
  if fd ∈ st.closedL then 1 else wr fd

/-- A performed socket write: destination descriptor, the bytes handed to
write_to_socket, and its result code. -/
abbrev Send := Nat × List Nat × Nat

/-- write_buf_to_client from chat_helpers.c:31: reject a string longer
than BUF_SIZE-2, otherwise overwrite the NUL with CRLF and write len+2
bytes.  Returns the result code and the writes actually performed (none
when the length check rejects).  The NUL-termination check of the C code
always succeeds for the in-bounds buffers modelled here. -/
def write_buf_to_client (st : FdSt) (wr : Nat → Nat) (fd : Nat) (buf : List Nat) :
    Nat × List Send :=
  if BUF_SIZE - 2 < buf.length then (1, [])
  else
    let code := write_to_socket_code st wr fd
    (code, [(fd, buf ++ [13, 10], code)])

/-- The broadcast loop of _process_client_data (server.c:394-401),
fuel-indexed.  A destination whose write reports disconnect is removed
with _remove_client and, as in the C code, `continue` revisits the same
node (whose descriptor is now closed) before the cursor advances. -/
def broadcastLoop (wr : Nat → Nat) (bytes : List Nat) :
    Nat → FdSt → List ClientC → List Send → Option (FdSt × List Send)
  | 0, _, _, _ => none
  | _ + 1, st, [], acc => some (st, acc)
  | fuel + 1, st, c :: rest, acc =>
    let r := write_buf_to_client st wr c.sock_fd bytes
    if r.1 = 2 then
      broadcastLoop wr bytes fuel (_remove_client st c.sock_fd) (c :: rest) (acc ++ r.2)
    else
      broadcastLoop wr bytes fuel st rest (acc ++ r.2)

/-- The broadcast loop run with sufficient fuel (each node is visited at
most twice, see broadcastLoop_some). -/
def broadcastRun (wr : Nat → Nat) (bytes : List Nat) (st : FdSt) (l : List ClientC) :
    FdSt × List Send :=
  (broadcastLoop wr bytes (2 * l.length + 1) st l []).getD (st, [])

/-- snprintf(dst, n, s): copy at most n-1 bytes of the C string s. -/
def snprintf_s (n : Nat) (src : List Nat) : List Nat :=
  (src.takeWhile (· ≠ 0)).take (n - 1)

/-- The ten bytes of the literal backslash-connected control token. -/
def connectedTok : List Nat := [92, 99, 111, 110, 110, 101, 99, 116, 101, 100]

/-- The command test of _server_commands (server.c:330): msg[data_len-2]
is overwritten with NUL, strchr finds the first colon of the resulting C
string, the byte after it must be non-NUL, and strncmp over
strlen("\\connected")+1 bytes demands that the remainder equal the token
exactly. -/
def isConnectedCmd (msg : List Nat) (dataLen : Nat) : Bool :=
  let mC := (msg.take (dataLen - 2)).takeWhile (· ≠ 0)
  match mC.findIdx? (· == 58) with
  | none => false
  | some i =>
    let rest := mC.drop (i + 1)
    decide (rest ≠ [] ∧ rest = connectedTok)

/-- Decimal digits (as ASCII bytes) of n, fuel-indexed so that it is
structurally recursive; decRepr supplies enough fuel. -/
def decReprAux : Nat → Nat → List Nat
  | 0, _ => []
  | fuel + 1, n => if n < 10 then [48 + n] else decReprAux fuel (n / 10) ++ [48 + n % 10]

/-- The bytes snprintf("%d", n) produces for a nonnegative value. -/
def decRepr (n : Nat) : List Nat := decReprAux (n + 1) n

/-- The bytes snprintf("%d", i) produces for a C int value. -/
def intDecRepr (i : Int) : List Nat :=
  if i < 0 then 45 :: decRepr i.natAbs else decRepr i.toNat

/-- Result of one run of the message-draining loop of
_process_client_data: the descriptor state, the remaining buffer of the
client being drained, the messages handed to display_message for the
operator, and the socket writes performed. -/
structure DrainRes where
  st : FdSt
  buf : List Nat
  disp : List (List Nat)
  sends : List Send
deriving DecidableEq

/-- The drain loop of _process_client_data (server.c:376-402),
fuel-indexed.  c is the cursor client the loop is draining, rest the
clients after it in the registry.  Per complete message: write_buf is
snprintf-truncated to MAX_USER_MSG bytes; a recognised connected-command
answers the cursor client with the live count and breaks (removing the
cursor client when the reply reports disconnect); otherwise the message
is displayed to the operator and broadcast over the cursor suffix
c :: rest of the registry. -/
def drainLoopF (wr : Nat → Nat) :
    Nat → FdSt → ClientC → List ClientC → List Nat → Option DrainRes
  | 0, _, _, _, _ => none
  | fuel + 1, st, c, rest, buf =>
    match get_message buf with
    | none => some ⟨st, buf, [], []⟩
    | some (msg, buf2) =>
      let write_buf := snprintf_s MAX_USER_MSG msg
      let data_len := write_buf.length
      if isConnectedCmd msg data_len then
        let reply := (intDecRepr st.count).take (BUF_SIZE - 1)
        let r := write_buf_to_client st wr c.sock_fd reply
        if r.1 = 2 then some ⟨_remove_client st c.sock_fd, buf2, [], r.2⟩
        else some ⟨st, buf2, [], r.2⟩
      else
        let b := broadcastRun wr write_buf st (c :: rest)
        match drainLoopF wr fuel b.1 c rest buf2 with
        | none => none
        | some res => some ⟨res.st, res.buf, write_buf :: res.disp, b.2 ++ res.sends⟩

/-- Result of one pass of the outer per-client loop body for the cursor
client: descriptor state, the client with its updated buffer, operator
displays, socket writes, and whether the disconnect branch ran
(_remove_client on the cursor, cursor not advanced). -/
structure PassRes where
  st : FdSt
  cli : ClientC
  disp : List (List Nat)
  sends : List Send
  removed : Bool
deriving DecidableEq

/-- One iteration body of the per-client loop of _process_client_data
(server.c:362-409) for a ready cursor client: read_from_client (read(2)
on an already-closed descriptor fails with EBADF, hence the rerr event),
a read error is treated as a disconnect, the drain loop runs only when
the read reported a complete message, and a disconnected client is passed
to _remove_client while the cursor stays on its node. -/
def clientPass (rd : Nat → ReadEv) (wr : Nat → Nat) (st : FdSt) (c : ClientC)
    (rest : List ClientC) : PassRes :=
  let ev := if c.sock_fd ∈ st.closedL then ReadEv.rerr else rd c.sock_fd
  let r := read_from_socket ev c.buf
  let cc : Int := if r.1 = -1 then 1 else r.1
  let d :=
    if cc = 0 then (drainLoopF wr (r.2.length + 1) st c rest r.2).getD ⟨st, r.2, [], []⟩
    else ⟨st, r.2, [], []⟩
  if cc = 1 then ⟨_remove_client d.st c.sock_fd, { c with buf := d.buf }, d.disp, d.sends, true⟩
  else ⟨d.st, { c with buf := d.buf }, d.disp, d.sends, false⟩

/-- Result of a completed walk of the per-client loop: descriptor state,
operator displays, socket writes. -/
structure LoopRes where
  st : FdSt
  disp : List (List Nat)
  sends : List Send
deriving DecidableEq

/-- _process_client_data (server.c:359): walk the clients list, skipping
descriptors that select did not report ready (the ready predicate is the
listen_fds copy, fixed for the whole walk); on the disconnect branch the
cursor is not advanced and the node is not unlinked, exactly as in the C
code.  Fuel-indexed; none means the fuel ran out. -/
def processLoop (rd : Nat → ReadEv) (wr : Nat → Nat) (ready : Nat → Bool) :
    Nat → FdSt → List ClientC → List (List Nat) → List Send → Option LoopRes
  | 0, _, _, _, _ => none
  | _ + 1, st, [], disp, sends => some ⟨st, disp, sends⟩
  | fuel + 1, st, c :: rest, disp, sends =>
    if ready c.sock_fd then
      let p := clientPass rd wr st c rest
      if p.removed then
        processLoop rd wr ready fuel p.st (p.cli :: rest) (disp ++ p.disp) (sends ++ p.sends)
      else
        processLoop rd wr ready fuel p.st rest (disp ++ p.disp) (sends ++ p.sends)
    else processLoop rd wr ready fuel st rest disp sends

/-- The writes a broadcast performs over a client list: one write per
destination, preceded for a disconnecting destination by the failing
write and followed by the retry on the then-closed descriptor. -/
def expandSends (wr : Nat → Nat) (bytes : List Nat) (l : List ClientC) : List Send :=
  l.flatMap fun d =>
    if wr d.sock_fd = 2 then
      [(d.sock_fd, bytes ++ [13, 10], 2), (d.sock_fd, bytes ++ [13, 10], 1)]
    else [(d.sock_fd, bytes ++ [13, 10], wr d.sock_fd)]

/-- The descriptor state after a broadcast: every destination whose write
reported disconnect has been passed to _remove_client. -/
def removeFails (wr : Nat → Nat) (st : FdSt) (l : List ClientC) : FdSt :=
  l.foldl (fun s d => if wr d.sock_fd = 2 then _remove_client s d.sock_fd else s) st

/-- remove_client from chat_helpers.c:52: unlink the node with the given
descriptor from the clients list (head, middle or tail) and free it;
none models the C failure return 1 (not found or empty list).  This
function exists in the sources but server.c never calls it. -/
def remove_client : Nat → List ClientC → Option (List ClientC)
  | _, [] => none
  | fd, c :: rest =>
    if c.sock_fd = fd then some rest
    else (remove_client fd rest).map (c :: ·)

/-- The accept-path state of server(): the id counter, descriptor
bookkeeping, the clients linked list, the id frames written to new
clients, and the ids assigned so far. -/
structure TopSt where
  client_id : Nat
  st : FdSt
  clients : List ClientC
  idSends : List (List Nat)
  assigned : List Nat
deriving DecidableEq

/-- _send_client_id from server.c:263: increment the id counter and the
live count, render the id with snprintf("%d") and write it to the new
client.  Returns the new counter, the new descriptor state, the frame
bytes, and the mapped return (-1 write error and server exit, 1 client
disconnected, 0 success). -/
def _send_client_id (wr : Nat → Nat) (st : FdSt) (client_id : Nat) (fd : Nat) :
    Nat × FdSt × List Nat × Int :=
  let id2 := client_id + 1
  let st2 := { st with count := st.count + 1 }
  let write_buf := decRepr id2
  let r := write_buf_to_client st2 wr fd write_buf
  let ret : Int := if r.1 = 1 then -1 else if r.1 = 2 then 1 else 0
  (id2, st2, write_buf ++ [13, 10], ret)

/-- The accept branch of the event loop (server.c:100-118):
_accept_connection appends the node to the tail of the clients list, the
descriptor is FD_SET into all_fds, then _send_client_id runs; on its
disconnect return the event loop calls _remove_client and continues, on
its error return the server exits with -1. -/
def acceptStep (wr : Nat → Nat) (t : TopSt) (fd : Nat) : TopSt × Int :=
  let t1 := { t with clients := t.clients ++ [ClientC.mk fd []],
                     st := { t.st with fds := fd :: t.st.fds } }
  let s := _send_client_id wr t1.st t1.client_id fd
  let t2 := { t1 with client_id := s.1, st := s.2.1,
                      idSends := t1.idSends ++ [s.2.2.1], assigned := t1.assigned ++ [s.1] }
  if s.2.2.2 = -1 then (t2, -1)
  else if s.2.2.2 = 1 then ({ t2 with st := _remove_client t2.st fd }, 1)
  else (t2, 0)

/-- Event-loop level events touching the registry: an accepted
connection (with the write oracle deciding the id send's fate) and a
removal of a descriptor, i.e. any _remove_client call from the
disconnect or failed-send paths. -/
inductive TEv where
  | accept (fd : Nat)
  | depart (fd : Nat)
deriving DecidableEq

/-- Run a sequence of registry events from a state; a -1 from the accept
path ends the event loop as in server(). -/
def runTrace (wr : Nat → Nat) : List TEv → TopSt → TopSt
  | [], t => t
  | TEv.accept fd :: evs, t =>
    let r := acceptStep wr t fd
    if r.2 = -1 then r.1 else runTrace wr evs r.1
  | TEv.depart fd :: evs, t =>
    runTrace wr evs { t with st := _remove_client t.st fd }

/-- The server's initial state: client_id = 0, client_count = 0, no
clients, nothing watched. -/
def top0 : TopSt := ⟨0, ⟨0, [], []⟩, [], [], []⟩

/-- The registry invariant of the specification: a connection is a member
of the clients linked list iff its descriptor is in the watched set. -/
def memberIff (t : TopSt) : Prop :=
  ∀ fd, fd ∈ t.clients.map ClientC.sock_fd ↔ fd ∈ t.st.fds

/-- Outcome of _recieve_message as seen by _get_client_id: read error,
peer disconnected (or invalid data), or a message payload with the CRLF
already stripped. -/
inductive RecvOut where
  | rerr
  | closed
  | msgIn (m : List Nat)
deriving DecidableEq

/-- strtol whitespace test (isspace in the C locale). -/
def isWS (c : Nat) : Bool := c == 32 || (9 ≤ c && c ≤ 13)

/-- ASCII decimal digit test. -/
def isDigit (c : Nat) : Bool := 48 ≤ c && c ≤ 57

/-- LONG_MAX on the LP64 targets the shell builds for. -/
def LONG_MAX : Int := 9223372036854775807

/-- LONG_MIN on the LP64 targets the shell builds for. -/
def LONG_MIN : Int := -9223372036854775808

/-- strtol(s, NULL, 10) as glibc implements it: skip whitespace, an
optional sign, then a digit run; no digits means value 0 with errno left
untouched; a value outside the long range is clamped with ERANGE.  The
Bool is the ERANGE flag, the only errno change the callers test. -/
def strtol10 (s : List Nat) : Int × Bool :=
  let s1 := s.dropWhile isWS
  let p : Int × List Nat :=
    match s1 with
    | 45 :: r => (-1, r)
    | 43 :: r => (1, r)
    | _ => (1, s1)
  let ds := p.2.takeWhile isDigit
  if ds = [] then (0, false)
  else
    let v : Nat := ds.foldl (fun a c => a * 10 + (c - 48)) 0
    let sv : Int := p.1 * (v : Int)
    if LONG_MAX < sv then (LONG_MAX, true)
    else if sv < LONG_MIN then (LONG_MIN, true)
    else (sv, false)

/-- _get_client_id from client.c:218: propagate the receive outcome,
convert the first frame with strtol, and treat only an errno change
(ERANGE) as invalid data. -/
def _get_client_id : RecvOut → Int × Int
  | .rerr => (-1, 0)
  | .closed => (1, 0)
  | .msgIn m =>
    let r := strtol10 m
    if r.2 then (-1, 0) else (0, r.1)

/-- How client() (client.c:62-69) ends the handshake: return 0 quietly,
return -1 with an error, or proceed into the chat loop with the id. -/
inductive Handshake where
  | quiet
  | errorExit
  | proceed (id : Int)
deriving DecidableEq

/-- The handshake dispatch of client(): _get_client_id's 1 becomes a
quiet 0 return, -1 an error return, 0 proceeds with the parsed id. -/
def client_handshake (r : RecvOut) : Handshake :=
  let g := _get_client_id r
  if g.1 = 1 then .quiet
  else if g.1 = -1 then .errorExit
  else .proceed g.2

/-- Exit of the first loop of _recieve_message (client.c:176-186): a
complete frame buffered, an error return, a disconnect return, or the
event list ran out while the loop would block on read(2). -/
inductive FirstOut where
  | ready (buf : List Nat)
  | errExit
  | closedExit
  | blocked
deriving DecidableEq

/-- The first loop of _recieve_message: call read_from_socket until it
reports a complete frame; -1 and 1 end the session. -/
def recvReadLoop : List ReadEv → List Nat → FirstOut
  | [], _ => .blocked
  | e :: es, buf =>
    let r := read_from_socket e buf
    if r.1 = 0 then .ready r.2
    else if r.1 = -1 then .errExit
    else if r.1 = 1 then .closedExit
    else recvReadLoop es r.2

/-- Result of _recieve_message: a parsed payload (CRLF stripped) with the
remaining buffer, or one of the session-ending returns. -/
inductive RecvRes where
  | ok (payload : List Nat) (buf : List Nat)
  | errExit
  | closedExit
  | oversize
  | blocked
deriving DecidableEq

/-- The second loop of _recieve_message (client.c:189-205), fuel-indexed:
while msg_len <= 2, pop a message when one is buffered (msg_len is
strnlen of the popped message, capped at MAX_PROTO_MSG); a degenerate
message is freed and the loop continues, an oversize one ends the
session, otherwise the CRLF is stripped and the loop exits.  When no
complete message is buffered the body does nothing and the loop spins
with unchanged state. -/
def recvPopLoopF : Nat → Int → List Nat → Option RecvRes
  | 0, _, _ => none
  | fuel + 1, msg_len, buf =>
    if msg_len ≤ 2 then
      match get_message buf with
      | some (m, buf2) =>
        let len : Int := ((m.takeWhile (· ≠ 0)).length ⊓ MAX_PROTO_MSG : Nat)
        if len ≤ 2 then recvPopLoopF fuel len buf2
        else if (MAX_PROTO_MSG : Int) < len then some .oversize
        else some (.ok (m.take (len.toNat - 2)) buf2)
      | none => recvPopLoopF fuel msg_len buf
    else some .blocked

/-- _recieve_message from client.c:173 over a list of read outcomes:
run the read loop, then the pop loop with msg_len initialised to -1. -/
def recieve_message (evs : List ReadEv) (fuel : Nat) : Option RecvRes :=
  match recvReadLoop evs [] with
  | .ready buf => recvPopLoopF fuel (-1) buf
  | .errExit => some .errExit
  | .closedExit => some .closedExit
  | .blocked => some .blocked

/-!  Helper lemmas about the framing codec. -/

set_option maxRecDepth 8192

theorem fnn_no_ten : ∀ (l : List Nat), (10 : Nat) ∉ l → find_network_newline l = none
  | [], _ => rfl
  | [_], _ => rfl
  | a :: b :: t, h => by
    have hb : ¬(a = 13 ∧ b = 10) := fun hab => h (by simp [hab.2])
    have ht : find_network_newline (b :: t) = none :=
      fnn_no_ten (b :: t) fun hm => h (List.mem_cons_of_mem _ hm)
    simp [find_network_newline, hb, ht]

theorem fnn_append_none : ∀ (a b : List Nat),
    find_network_newline (a ++ b) = none → find_network_newline a = none
  | [], _, _ => rfl
  | [_], _, _ => rfl
  | x :: y :: t, b, h => by
    have h2 : find_network_newline (x :: y :: (t ++ b)) = none := by simpa using h
    by_cases hxy : x = 13 ∧ y = 10
    · simp [find_network_newline, hxy] at h2
    · simp only [find_network_newline, if_neg hxy, Option.map_eq_none'] at h2
      have ht : find_network_newline (y :: t) = none :=
        fnn_append_none (y :: t) b (by simpa using h2)
      simp [find_network_newline, hxy, ht]

theorem fnn_some_bounds : ∀ (l : List Nat) (r : Nat),
    find_network_newline l = some r → 2 ≤ r ∧ r ≤ l.length
  | [], r, h => by simp [find_network_newline] at h
  | [a], r, h => by simp [find_network_newline] at h
  | a :: b :: t, r, h => by
    by_cases hab : a = 13 ∧ b = 10
    · simp only [find_network_newline, if_pos hab, Option.some_inj] at h
      subst h; simp
    · simp only [find_network_newline, if_neg hab] at h
      rcases Option.map_eq_some'.mp h with ⟨r', hr', hr⟩
      have hb := fnn_some_bounds (b :: t) r' hr'
      subst hr; simp at hb ⊢; omega

theorem fnn_replicate_A (n : Nat) :
    find_network_newline (List.replicate n 65 ++ [13, 10]) = some (n + 2) := by
  induction n with
  | zero => rfl
  | succ k ih =>
    have hsplit : List.replicate (k + 1) 65 ++ [13, 10] =
        65 :: (List.replicate k 65 ++ [13, 10]) := by
      simp [List.replicate_succ]
    rw [hsplit]
    rcases hM : List.replicate k 65 ++ [13, 10] with _ | ⟨hd, tl⟩
    · exact absurd hM (by simp)
    · have hne : ¬((65 : Nat) = 13 ∧ hd = 10) := fun hc => by omega
      rw [show find_network_newline (65 :: hd :: tl) =
            (find_network_newline (hd :: tl)).map (· + 1) by
          simp [find_network_newline, hne]]
      rw [← hM, ih]
      rfl

theorem ten_not_mem_prefix {k : Nat} (hk : k ≤ 127) : (10 : Nat) ∉ msgA.take k := by
  intro hmem
  have heq : msgA.take k = (msgA.take 127).take k := by
    rw [List.take_take]
    congr 1
    omega
  rw [heq] at hmem
  have h1 : (10 : Nat) ∈ msgA.take 127 := List.mem_of_mem_take hmem
  have h2 : msgA.take 127 = List.replicate 126 65 ++ [13] := by decide
  rw [h2] at h1
  rcases List.mem_append.mp h1 with h | h
  · exact absurd (List.eq_of_mem_replicate h) (by decide)
  · simp at h

theorem flatten_ne_nil {cs : List (List Nat)} (h1 : cs ≠ [])
    (h2 : ∀ c ∈ cs, c ≠ []) : cs.flatten ≠ [] := by
  cases cs with
  | nil => exact absurd rfl h1
  | cons c t =>
    have hc : c ≠ [] := h2 c (by simp)
    simp only [List.flatten_cons, ne_eq, List.append_eq_nil]
    intro hh
    exact hc hh.1

theorem read_chunk_ready {buf c : List Nat} {r : Nat}
    (h1 : buf.length + c.length ≤ 131) (hc : c ≠ [])
    (h3 : find_network_newline (buf ++ c) = some r) (h4 : r < 131) :
    read_from_socket (.chunk c) buf = (0, buf ++ c) := by
  have hclen : 1 ≤ c.length := List.length_pos.mpr hc
  have hblt : ¬(BUF_SIZE ≤ buf.length) := by simp only [BUF_SIZE]; omega
  have htake : c.take (BUF_SIZE - buf.length) = c :=
    List.take_of_length_le (by simp only [BUF_SIZE]; omega)
  have hd0 : ¬(c.length = 0) := by omega
  have hr : r < BUF_SIZE := by simp only [BUF_SIZE]; omega
  simp only [read_from_socket, if_neg hblt, htake, if_neg hd0, h3, if_pos hr]

theorem read_chunk_partial (buf c : List Nat)
    (h1 : buf.length + c.length ≤ 130) (hc : c ≠ [])
    (h3 : find_network_newline (buf ++ c) = none) :
    read_from_socket (.chunk c) buf = (2, buf ++ c) := by
  have hclen : 1 ≤ c.length := List.length_pos.mpr hc
  have hblt : ¬(BUF_SIZE ≤ buf.length) := by simp only [BUF_SIZE]; omega
  have htake : c.take (BUF_SIZE - buf.length) = c :=
    List.take_of_length_le (by simp only [BUF_SIZE]; omega)
  have hd0 : ¬(c.length = 0) := by omega
  have hfull : ¬(BUF_SIZE ≤ (buf ++ c).length) := by
    simp only [BUF_SIZE, List.length_append]; omega
  simp only [read_from_socket, if_neg hblt, htake, if_neg hd0, h3, if_neg hfull]

theorem read_chunk_overflow {buf c : List Nat}
    (h1 : buf.length + c.length = 131) (hc : c ≠ [])
    (h3 : find_network_newline (buf ++ c) = none) :
    read_from_socket (.chunk c) buf = (-1, buf ++ c) := by
  have hclen : 1 ≤ c.length := List.length_pos.mpr hc
  have hblt : ¬(BUF_SIZE ≤ buf.length) := by simp only [BUF_SIZE]; omega
  have htake : c.take (BUF_SIZE - buf.length) = c :=
    List.take_of_length_le (by simp only [BUF_SIZE]; omega)
  have hd0 : ¬(c.length = 0) := by omega
  have hfull : BUF_SIZE ≤ (buf ++ c).length := by
    simp only [BUF_SIZE, List.length_append]; omega
  simp only [read_from_socket, if_neg hblt, htake, if_neg hd0, h3, if_pos hfull]

theorem runReads_cons (c : List Nat) (cs : List (List Nat)) (buf : List Nat) :
    runReads (c :: cs) buf =
      ((read_from_socket (.chunk c) buf).1 ::
        (runReads cs (read_from_socket (.chunk c) buf).2).1,
       (runReads cs (read_from_socket (.chunk c) buf).2).2) := rfl

theorem runReads_msgA : ∀ (cs : List (List Nat)) (buf : List Nat),
    cs ≠ [] → (∀ ch ∈ cs, ch ≠ []) → buf ++ cs.flatten = msgA →
    runReads cs buf = (List.replicate (cs.length - 1) 2 ++ [0], msgA)
  | [], _, hne, _, _ => absurd rfl hne
  | [c], buf, _, hch, hj => by
    have hc : c ≠ [] := hch c (by simp)
    have hbc : buf ++ c = msgA := by simpa using hj
    have hlen : buf.length + c.length = 128 := by
      have h := congrArg List.length hbc
      simp [msgA] at h
      omega
    have hfnn : find_network_newline (buf ++ c) = some 128 := by
      rw [hbc]
      simpa [msgA] using fnn_replicate_A 126
    have hstep := read_chunk_ready (r := 128) (by omega) hc hfnn (by omega)
    simp [runReads, hstep, hbc]
  | c :: c2 :: cs, buf, _, hch, hj => by
    have hc : c ≠ [] := hch c (by simp)
    have hrest : ∀ ch ∈ c2 :: cs, ch ≠ [] := fun ch h => hch ch (by simp [h])
    have hjoin : (buf ++ c) ++ (c2 :: cs).flatten = msgA := by
      simpa [List.append_assoc] using hj
    have hrne : (c2 :: cs).flatten ≠ [] := flatten_ne_nil (by simp) hrest
    have hlen : (buf ++ c).length + (c2 :: cs).flatten.length = 128 := by
      have h := congrArg List.length hjoin
      simp [msgA] at h
      simp [List.length_append]
      omega
    have hrlen : 1 ≤ (c2 :: cs).flatten.length := List.length_pos.mpr hrne
    have hpre : buf ++ c = msgA.take (buf ++ c).length := by
      conv_rhs => rw [← hjoin]
      rw [List.take_left]
    have hfnn : find_network_newline (buf ++ c) = none := by
      apply fnn_no_ten
      rw [hpre]
      exact ten_not_mem_prefix (by omega)
    have hstep := read_chunk_partial buf c (by simp at hlen ⊢; omega) hc hfnn
    have ih := runReads_msgA (c2 :: cs) (buf ++ c) (by simp) hrest hjoin
    rw [runReads_cons, hstep]
    simp [ih, List.replicate_succ]

theorem get_message_spec {src f r : List Nat} (h : get_message src = some (f, r)) :
    f ++ r = src ∧ r.length = src.length - f.length := by
  unfold get_message at h
  rcases hf : find_network_newline src with _ | crlf
  · rw [hf] at h; simp at h
  · rw [hf] at h
    simp only [Option.some_inj, Prod.mk.injEq] at h
    obtain ⟨h1, h2⟩ := h
    subst h1; subst h2
    refine ⟨List.take_append_drop _ _, ?_⟩
    simp [List.length_take, List.length_drop]
    omega

/-- Claim C5: for every split of the 126-A-plus-CRLF delivery into
nonempty chunks, the codec reports FrameReady (0) exactly once — on the
final chunk, all earlier reads reporting partial (2) — extraction pops
exactly that frame (the 126-byte payload through its terminator) leaving
an empty buffer, and extraction in general shifts the unread bytes to
offset zero preserving them exactly and decrements the valid count by
the frame length. -/
theorem c5_codec_chunking (cs : List (List Nat))
    (h1 : ∀ ch ∈ cs, ch ≠ []) (h2 : cs.flatten = msgA) :
    (runReads cs []).1 = List.replicate (cs.length - 1) 2 ++ [0]
    ∧ (runReads cs []).1.count 0 = 1
    ∧ (runReads cs []).2 = msgA
    ∧ get_message msgA = some (List.replicate 126 65 ++ [13, 10], [])
    ∧ (∀ src f r : List Nat, get_message src = some (f, r) →
        f ++ r = src ∧ r.length = src.length - f.length) := by
  have hne : cs ≠ [] := by
    intro h
    rw [h] at h2
    simp [msgA] at h2
  have hrun := runReads_msgA cs [] hne h1 (by simpa using h2)
  refine ⟨by rw [hrun], ?_, by rw [hrun], by decide, ?_⟩
  · rw [hrun]
    simp [List.count_append, List.count_replicate]
  · intro src f r h
    exact get_message_spec h

/-- Witness for claim C5: the delivery split as 126 bytes then the
2-byte terminator. -/
theorem c5_codec_chunking_witness :
    (runReads [List.replicate 126 65, [13, 10]] []).1 = List.replicate 1 2 ++ [0]
    ∧ (runReads [List.replicate 126 65, [13, 10]] []).1.count 0 = 1
    ∧ (runReads [List.replicate 126 65, [13, 10]] []).2 = msgA
    ∧ get_message msgA = some (List.replicate 126 65 ++ [13, 10], [])
    ∧ (∀ src f r : List Nat, get_message src = some (f, r) →
        f ++ r = src ∧ r.length = src.length - f.length) := by
  have h := c5_codec_chunking [List.replicate 126 65, [13, 10]] (by decide) (by decide)
  simpa using h

theorem read_chunk_snd (data buf : List Nat) (hb : ¬(BUF_SIZE ≤ buf.length)) :
    (read_from_socket (.chunk data) buf).2 = buf ++ data.take (BUF_SIZE - buf.length) := by
  by_cases h0 : (data.take (BUF_SIZE - buf.length)).length = 0
  · simp [read_from_socket, hb, h0]
  · rcases hf : find_network_newline (buf ++ data.take (BUF_SIZE - buf.length)) with _ | r
    · simp only [read_from_socket, if_neg hb, h0, if_neg h0, hf]
      split_ifs <;> rfl
    · simp only [read_from_socket, if_neg hb, h0, if_neg h0, hf]
      split_ifs <;> rfl

theorem read_capacity (ev : ReadEv) (buf : List Nat) (h : buf.length ≤ BUF_SIZE) :
    ((read_from_socket ev buf).2).length ≤ BUF_SIZE := by
  by_cases hb : BUF_SIZE ≤ buf.length
  · cases ev <;> simp [read_from_socket, hb, h]
  · cases ev with
    | rerr => simp [read_from_socket, hb, h]
    | closed => simp [read_from_socket, hb, h]
    | chunk data =>
      rw [read_chunk_snd data buf hb]
      simp [List.length_append, List.length_take]
      omega

theorem runReads_capacity : ∀ (cs : List (List Nat)) (buf : List Nat),
    buf.length ≤ BUF_SIZE → ((runReads cs buf).2).length ≤ BUF_SIZE
  | [], _, h => h
  | c :: cs, buf, h =>
    runReads_capacity cs (read_from_socket (.chunk c) buf).2
      (read_capacity (.chunk c) buf h)

theorem runReads_noterm : ∀ (cs : List (List Nat)) (buf S : List Nat),
    S.length = 131 → find_network_newline S = none →
    cs ≠ [] → (∀ ch ∈ cs, ch ≠ []) → buf ++ cs.flatten = S →
    runReads cs buf = (List.replicate (cs.length - 1) 2 ++ [-1], S)
  | [], _, _, _, _, hne, _, _ => absurd rfl hne
  | [c], buf, S, hS, hterm, _, hch, hj => by
    have hc : c ≠ [] := hch c (by simp)
    have hbc : buf ++ c = S := by simpa using hj
    have hlen : buf.length + c.length = 131 := by
      have h := congrArg List.length hbc
      simp [List.length_append, hS] at h
      omega
    have hfnnbc : find_network_newline (buf ++ c) = none := by rw [hbc]; exact hterm
    have hstep := read_chunk_overflow hlen hc hfnnbc
    simp [runReads_cons, runReads, hstep, hbc]
  | c :: c2 :: cs, buf, S, hS, hterm, _, hch, hj => by
    have hc : c ≠ [] := hch c (by simp)
    have hrest : ∀ ch ∈ c2 :: cs, ch ≠ [] := fun ch h => hch ch (by simp [h])
    have hjoin : (buf ++ c) ++ (c2 :: cs).flatten = S := by
      simpa [List.append_assoc] using hj
    have hrne : (c2 :: cs).flatten ≠ [] := flatten_ne_nil (by simp) hrest
    have hrlen : 1 ≤ (c2 :: cs).flatten.length := List.length_pos.mpr hrne
    have hlen : buf.length + c.length + (c2 :: cs).flatten.length = 131 := by
      have h := congrArg List.length hjoin
      rw [List.length_append, List.length_append, hS] at h
      omega
    have hfnn : find_network_newline (buf ++ c) = none :=
      fnn_append_none _ _ (by rw [hjoin]; exact hterm)
    have hstep := read_chunk_partial buf c (by omega) hc hfnn
    have ih := runReads_noterm (c2 :: cs) (buf ++ c) S hS hterm (by simp) hrest hjoin
    rw [runReads_cons, hstep]
    simp [ih, List.replicate_succ]

/-- Claim C6: a byte stream whose buffered bytes reach the buffer
capacity (131 bytes) without containing a CRLF terminator makes the
final read report Error (-1) instead of truncating — all earlier reads
report partial — and the valid-byte count never exceeds the buffer
capacity, at every prefix of the run and over any single read. -/
theorem c6_overflow_error (S : List Nat) (hS : S.length = 131)
    (hterm : find_network_newline S = none)
    (cs : List (List Nat)) (h1 : ∀ ch ∈ cs, ch ≠ []) (h2 : cs.flatten = S) :
    (runReads cs []).1 = List.replicate (cs.length - 1) 2 ++ [-1]
    ∧ (∀ k : Nat, ((runReads (cs.take k) []).2).length ≤ BUF_SIZE)
    ∧ (∀ ev buf, buf.length ≤ BUF_SIZE →
        ((read_from_socket ev buf).2).length ≤ BUF_SIZE) := by
  have hne : cs ≠ [] := by
    intro h
    rw [h] at h2
    rw [← h2] at hS
    simp at hS
  have hrun := runReads_noterm cs [] S hS hterm hne h1 (by simpa using h2)
  refine ⟨by rw [hrun], ?_, fun ev buf h => read_capacity ev buf h⟩
  intro k
  exact runReads_capacity (cs.take k) [] (by simp [BUF_SIZE])

/-- Witness for claim C6: 131 A-bytes delivered as a 66-byte and a
65-byte chunk. -/
theorem c6_overflow_error_witness :
    (runReads [List.replicate 66 65, List.replicate 65 65] []).1 =
      List.replicate 1 2 ++ [-1]
    ∧ (∀ k : Nat,
        ((runReads ([List.replicate 66 65, List.replicate 65 65].take k) []).2).length
          ≤ BUF_SIZE)
    ∧ (∀ ev buf, buf.length ≤ BUF_SIZE →
        ((read_from_socket ev buf).2).length ≤ BUF_SIZE) := by
  have h := c6_overflow_error (List.replicate 131 65) (by decide) (by decide)
    [List.replicate 66 65, List.replicate 65 65] (by decide) (by decide)
  simpa using h

/-!  Broadcast characterisation. -/

theorem broadcastLoop_spec (wr : Nat → Nat) (bytes : List Nat)
    (hb : bytes.length ≤ BUF_SIZE - 2) :
    ∀ (l : List ClientC) (fuel : Nat) (st : FdSt) (acc : List Send),
      2 * l.length + 1 ≤ fuel →
      (∀ d ∈ l, d.sock_fd ∉ st.closedL) →
      (l.map ClientC.sock_fd).Nodup →
      broadcastLoop wr bytes fuel st l acc =
        some (removeFails wr st l, acc ++ expandSends wr bytes l)
  | [], fuel, st, acc, hf, _, _ => by
    cases fuel with
    | zero => omega
    | succ f => simp [broadcastLoop, removeFails, expandSends]
  | d :: rest, fuel, st, acc, hf, hop, hnd => by
    have hrestlen : 2 * rest.length + 1 + 2 ≤ fuel := by
      simp only [List.length_cons] at hf
      omega
    cases fuel with
    | zero => omega
    | succ f =>
      have hdopen : d.sock_fd ∉ st.closedL := hop d (by simp)
      have hlen : ¬(BUF_SIZE - 2 < bytes.length) := by omega
      have hnd2 : d.sock_fd ∉ rest.map ClientC.sock_fd ∧
          (rest.map ClientC.sock_fd).Nodup := by
        simpa [List.nodup_cons] using hnd
      by_cases hw : wr d.sock_fd = 2
      · cases f with
        | zero => omega
        | succ f2 =>
          have hop2 : ∀ e ∈ rest, e.sock_fd ∉ (_remove_client st d.sock_fd).closedL := by
            intro e he
            simp only [_remove_client, List.mem_cons]
            push_neg
            refine ⟨?_, hop e (by simp [he])⟩
            intro heq
            exact hnd2.1 (heq ▸ List.mem_map_of_mem ClientC.sock_fd he)
          have hclosed : d.sock_fd ∈ (_remove_client st d.sock_fd).closedL := by
            simp [_remove_client]
          have ih := broadcastLoop_spec wr bytes hb rest f2
            (_remove_client st d.sock_fd)
            ((acc ++ [(d.sock_fd, bytes ++ [13, 10], 2)]) ++
              [(d.sock_fd, bytes ++ [13, 10], 1)])
            (by omega) hop2 hnd2.2
          have step : broadcastLoop wr bytes (f2 + 1 + 1) st (d :: rest) acc =
              broadcastLoop wr bytes f2 (_remove_client st d.sock_fd) rest
                ((acc ++ [(d.sock_fd, bytes ++ [13, 10], 2)]) ++
                  [(d.sock_fd, bytes ++ [13, 10], 1)]) := by
            simp [broadcastLoop, write_buf_to_client, if_neg hlen,
              write_to_socket_code, hdopen, hw, hclosed, List.append_assoc]
          rw [step, ih]
          simp [removeFails, expandSends, hw, List.append_assoc]
      · have ih := broadcastLoop_spec wr bytes hb rest f st
          (acc ++ [(d.sock_fd, bytes ++ [13, 10], wr d.sock_fd)])
          (by omega) (fun e he => hop e (by simp [he])) hnd2.2
        have step : broadcastLoop wr bytes (f + 1) st (d :: rest) acc =
            broadcastLoop wr bytes f st rest
              (acc ++ [(d.sock_fd, bytes ++ [13, 10], wr d.sock_fd)]) := by
          simp [broadcastLoop, write_buf_to_client, if_neg hlen,
            write_to_socket_code, hdopen, hw]
        rw [step, ih]
        simp [removeFails, expandSends, hw, List.append_assoc]

theorem broadcastRun_spec (wr : Nat → Nat) (bytes : List Nat) (st : FdSt)
    (l : List ClientC) (hb : bytes.length ≤ BUF_SIZE - 2)
    (hop : ∀ d ∈ l, d.sock_fd ∉ st.closedL)
    (hnd : (l.map ClientC.sock_fd).Nodup) :
    broadcastRun wr bytes st l = (removeFails wr st l, expandSends wr bytes l) := by
  unfold broadcastRun
  rw [broadcastLoop_spec wr bytes hb l (2 * l.length + 1) st [] (le_refl _) hop hnd]
  rfl

/-!  Drain-loop characterisation. -/

theorem takeWhile_ne_zero : ∀ (l : List Nat), (0 : Nat) ∉ l → l.takeWhile (· ≠ 0) = l
  | [], _ => rfl
  | a :: t, h => by
    have ha : a ≠ 0 := fun h0 => h (by simp [h0])
    simp [List.takeWhile_cons, ha]
    exact fun x hx hx0 => h (List.mem_cons_of_mem a (hx0 ▸ hx))

theorem get_message_single {payload : List Nat}
    (hfr : find_network_newline (payload ++ [13, 10]) = some (payload.length + 2)) :
    get_message (payload ++ [13, 10]) = some (payload ++ [13, 10], []) := by
  have h1 : List.take (payload.length + 2) (payload ++ [13, 10]) = payload ++ [13, 10] :=
    List.take_of_length_le (by simp)
  have h2 : List.drop (payload.length + 2) (payload ++ [13, 10]) = [] := by
    apply List.drop_eq_nil_of_le
    simp
  unfold get_message
  rw [hfr]
  simp [h1, h2]

theorem snprintf_id {msg : List Nat} (h0 : (0 : Nat) ∉ msg) (hl : msg.length ≤ 127) :
    snprintf_s MAX_USER_MSG msg = msg := by
  unfold snprintf_s
  rw [takeWhile_ne_zero msg h0]
  exact List.take_of_length_le (by simpa [MAX_USER_MSG] using hl)

theorem drain_nil (wr : Nat → Nat) (f : Nat) (st : FdSt) (c : ClientC)
    (rest : List ClientC) :
    drainLoopF wr (f + 1) st c rest [] = some ⟨st, [], [], []⟩ := by
  simp [drainLoopF, get_message, find_network_newline]

theorem drainLoopF_step_noncmd (wr : Nat → Nat) (f : Nat) (st : FdSt) (c : ClientC)
    (rest : List ClientC) (buf msg buf2 : List Nat)
    (hmsg : get_message buf = some (msg, buf2))
    (hcmd : isConnectedCmd msg (snprintf_s MAX_USER_MSG msg).length = false) :
    drainLoopF wr (f + 1) st c rest buf =
      match drainLoopF wr f
          (broadcastRun wr (snprintf_s MAX_USER_MSG msg) st (c :: rest)).1 c rest buf2 with
      | none => none
      | some res => some ⟨res.st, res.buf, snprintf_s MAX_USER_MSG msg :: res.disp,
          (broadcastRun wr (snprintf_s MAX_USER_MSG msg) st (c :: rest)).2 ++ res.sends⟩ := by
  conv_lhs => rw [drainLoopF]
  rw [hmsg]
  simp [hcmd]

theorem drainLoopF_step_cmd (wr : Nat → Nat) (f : Nat) (st : FdSt) (c : ClientC)
    (rest : List ClientC) (buf msg buf2 : List Nat)
    (hmsg : get_message buf = some (msg, buf2))
    (hcmd : isConnectedCmd msg (snprintf_s MAX_USER_MSG msg).length = true) :
    drainLoopF wr (f + 1) st c rest buf =
      (if (write_buf_to_client st wr c.sock_fd
            ((intDecRepr st.count).take (BUF_SIZE - 1))).1 = 2 then
        some ⟨_remove_client st c.sock_fd, buf2, [],
          (write_buf_to_client st wr c.sock_fd
            ((intDecRepr st.count).take (BUF_SIZE - 1))).2⟩
      else
        some ⟨st, buf2, [],
          (write_buf_to_client st wr c.sock_fd
            ((intDecRepr st.count).take (BUF_SIZE - 1))).2⟩) := by
  conv_lhs => rw [drainLoopF]
  rw [hmsg]
  simp [hcmd]

/-- Claim C1 (amended): for a non-command frame of at most 127 bytes
(payload at most 125 bytes, no NUL) popped from the cursor client's
buffer, the server surfaces the frame verbatim to the operator and
broadcasts it verbatim (as the payload of a freshly terminated frame) to
the cursor client and every connection after it in registry order; a
destination whose send reports disconnect is closed, dropped from the
watched set and its count decremented, and the broadcast continues with
the remaining destinations. -/
theorem c1_broadcast_amended (wr : Nat → Nat) (st : FdSt) (c : ClientC)
    (rest : List ClientC) (payload : List Nat)
    (h0 : (0 : Nat) ∉ payload) (hlen : payload.length ≤ 125)
    (hfr : find_network_newline (payload ++ [13, 10]) = some (payload.length + 2))
    (hcmd : isConnectedCmd (payload ++ [13, 10]) (payload.length + 2) = false)
    (hop : ∀ d ∈ c :: rest, d.sock_fd ∉ st.closedL)
    (hnd : ((c :: rest).map ClientC.sock_fd).Nodup) :
    drainLoopF wr (payload.length + 3) st c rest (payload ++ [13, 10]) =
      some ⟨removeFails wr st (c :: rest), [], [payload ++ [13, 10]],
        expandSends wr (payload ++ [13, 10]) (c :: rest)⟩ := by
  have h0m : (0 : Nat) ∉ payload ++ [13, 10] := by
    simp only [List.mem_append, List.mem_cons]
    push_neg
    exact ⟨h0, by decide⟩
  have hmsg := get_message_single hfr
  have hwb : snprintf_s MAX_USER_MSG (payload ++ [13, 10]) = payload ++ [13, 10] :=
    snprintf_id h0m (by simp; omega)
  have hdl : (payload ++ [13, 10]).length = payload.length + 2 := by simp
  have hb := broadcastRun_spec wr (payload ++ [13, 10]) st (c :: rest)
    (by simp [BUF_SIZE]; omega) hop hnd
  have hcmd2 : isConnectedCmd (payload ++ [13, 10])
      (snprintf_s MAX_USER_MSG (payload ++ [13, 10])).length = false := by
    rw [hwb]
    simpa [hdl] using hcmd
  have hfuel : payload.length + 3 = (payload.length + 2) + 1 := by omega
  rw [hfuel]
  rw [drainLoopF_step_noncmd wr (payload.length + 2) st c rest _ _ _ hmsg hcmd2]
  rw [hwb, hb]
  rw [show payload.length + 2 = (payload.length + 1) + 1 from rfl]
  rw [drain_nil wr (payload.length + 1) _ c rest]
  simp

/-- Witness for claim C1 (amended): the 2-byte payload hi broadcast from
the cursor client 4 over destinations 6 (whose send fails and which is
removed) and 7. -/
theorem c1_broadcast_amended_witness :
    drainLoopF (fun fd => if fd = 6 then 2 else 0) 5 ⟨3, [4, 6, 7], []⟩
        (ClientC.mk 4 []) [ClientC.mk 6 [], ClientC.mk 7 []] [104, 105, 13, 10] =
      some ⟨removeFails (fun fd => if fd = 6 then 2 else 0) ⟨3, [4, 6, 7], []⟩
          [ClientC.mk 4 [], ClientC.mk 6 [], ClientC.mk 7 []], [],
        [[104, 105, 13, 10]],
        expandSends (fun fd => if fd = 6 then 2 else 0) [104, 105, 13, 10]
          [ClientC.mk 4 [], ClientC.mk 6 [], ClientC.mk 7 []]⟩ :=
  c1_broadcast_amended (fun fd => if fd = 6 then 2 else 0) ⟨3, [4, 6, 7], []⟩
    (ClientC.mk 4 []) [ClientC.mk 6 [], ClientC.mk 7 []] [104, 105]
    (by decide) (by decide) (by decide) (by decide) (by decide) (by decide)

/-- Claim C1 (counterexample): registry [4, 5], select reports client 5
ready, client 5 delivers the non-command frame of 126 A-bytes plus CRLF,
every write succeeds.  The server performs exactly one write — to client
5 only, client 4 receives nothing although it is registered — and the
relayed bytes are the frame truncated to 127 bytes (the snprintf bound
MAX_USER_MSG) with a fresh terminator appended, not the original frame:
the broadcast is neither to every registered connection nor
byte-for-byte unchanged. -/
theorem c1_counterexample :
    processLoop (fun _ => ReadEv.chunk msgA) (fun _ => 0) (fun fd => fd == 5) 3
        ⟨2, [4, 5], []⟩ [ClientC.mk 4 [], ClientC.mk 5 []] [] [] =
      some ⟨⟨2, [4, 5], []⟩, [List.replicate 126 65 ++ [13]],
        [(5, (List.replicate 126 65 ++ [13]) ++ [13, 10], 0)]⟩
    ∧ (∀ s ∈ [(5, (List.replicate 126 65 ++ [13]) ++ [13, 10], 0)], (s : Send).1 ≠ 4)
    ∧ List.replicate 126 65 ++ [13] ≠ msgA := by
  refine ⟨by decide, by decide, by decide⟩

theorem findIdx_colon : ∀ (pre suf : List Nat) (start : Nat), (58 : Nat) ∉ pre →
    List.findIdx? (· == 58) (pre ++ 58 :: suf) start = some (start + pre.length)
  | [], suf, start, _ => by simp [List.findIdx?_cons]
  | a :: t, suf, start, h => by
    have ha : ¬((a == 58) = true) := by
      simp only [beq_iff_eq]
      exact fun heq => h (by simp [heq])
    have ih := findIdx_colon t suf (start + 1) fun hm => h (List.mem_cons_of_mem _ hm)
    simp only [List.cons_append, List.findIdx?_cons, if_neg ha, ih]
    congr 1
    simp
    omega

theorem isConnectedCmd_true (pre : List Nat) (hpre : (58 : Nat) ∉ pre)
    (h0 : (0 : Nat) ∉ pre) :
    isConnectedCmd ((pre ++ 58 :: connectedTok) ++ [13, 10])
      ((pre ++ 58 :: connectedTok).length + 2) = true := by
  have harith : (pre ++ 58 :: connectedTok).length + 2 - 2 =
      (pre ++ 58 :: connectedTok).length := by omega
  have h0m : (0 : Nat) ∉ pre ++ 58 :: connectedTok := by
    simp only [List.mem_append, List.mem_cons]
    push_neg
    exact ⟨h0, by decide, by decide⟩
  have hdrop : (pre ++ 58 :: connectedTok).drop (pre.length + 1) = connectedTok := by
    have hsplit : pre ++ 58 :: connectedTok = (pre ++ [58]) ++ connectedTok := by simp
    have hl : (pre ++ [58]).length = pre.length + 1 := by simp
    rw [hsplit, ← hl, List.drop_left]
  simp only [isConnectedCmd, harith, List.take_left, takeWhile_ne_zero _ h0m,
    findIdx_colon pre connectedTok 0 hpre, Nat.zero_add]
  simp [hdrop]
  decide

/-- Claim C7 (amended): for a frame of at most 127 bytes whose content
after the first colon is exactly the connected token, the server replies
only to the cursor (originating) client with the current live count as
decimal text, the frame is not broadcast and not displayed, and a reply
reporting disconnect removes the originating client and still skips the
broadcast. -/
theorem c7_connected_reply (wr : Nat → Nat) (st : FdSt) (c : ClientC)
    (rest : List ClientC) (pre : List Nat)
    (hpre : (58 : Nat) ∉ pre) (h0 : (0 : Nat) ∉ pre)
    (hlen : pre.length ≤ 114)
    (hfr : find_network_newline ((pre ++ 58 :: connectedTok) ++ [13, 10]) =
      some ((pre ++ 58 :: connectedTok).length + 2))
    (hop : c.sock_fd ∉ st.closedL)
    (hrl : (intDecRepr st.count).length ≤ 129) :
    drainLoopF wr ((pre ++ 58 :: connectedTok).length + 3) st c rest
        ((pre ++ 58 :: connectedTok) ++ [13, 10]) =
      some ⟨(if wr c.sock_fd = 2 then _remove_client st c.sock_fd else st), [], [],
        [(c.sock_fd, intDecRepr st.count ++ [13, 10], wr c.sock_fd)]⟩ := by
  have h0m : (0 : Nat) ∉ (pre ++ 58 :: connectedTok) ++ [13, 10] := by
    simp only [List.mem_append, List.mem_cons]
    push_neg
    exact ⟨⟨h0, by decide, by decide⟩, by decide, by decide⟩
  have hmsg := get_message_single hfr
  have hplen : (pre ++ 58 :: connectedTok).length = pre.length + 11 := by
    simp [connectedTok]
  have hwb : snprintf_s MAX_USER_MSG ((pre ++ 58 :: connectedTok) ++ [13, 10]) =
      (pre ++ 58 :: connectedTok) ++ [13, 10] :=
    snprintf_id h0m (by simp [connectedTok]; omega)
  have hdl : ((pre ++ 58 :: connectedTok) ++ [13, 10]).length =
      (pre ++ 58 :: connectedTok).length + 2 := by simp; omega
  have hcmd2 : isConnectedCmd ((pre ++ 58 :: connectedTok) ++ [13, 10])
      (snprintf_s MAX_USER_MSG ((pre ++ 58 :: connectedTok) ++ [13, 10])).length = true := by
    rw [hwb, hdl]
    exact isConnectedCmd_true pre hpre h0
  have htk : (intDecRepr st.count).take (BUF_SIZE - 1) = intDecRepr st.count :=
    List.take_of_length_le (by simp [BUF_SIZE]; omega)
  have hwlen : ¬(BUF_SIZE - 2 < (intDecRepr st.count).length) := by
    simp [BUF_SIZE]; omega
  rw [show (pre ++ 58 :: connectedTok).length + 3 =
      ((pre ++ 58 :: connectedTok).length + 2) + 1 from rfl]
  rw [drainLoopF_step_cmd wr ((pre ++ 58 :: connectedTok).length + 2) st c rest _ _ _
    hmsg hcmd2]
  rw [htk]
  simp only [write_buf_to_client, if_neg hwlen, write_to_socket_code, if_neg hop]
  split_ifs with hw
  · simp [hw]
  · simp [hw]

/-- Witness for claim C7 (amended): a server with live count 3 answers
the frame c-colon-connected with the single private reply 3 to the
originating client 5. -/
theorem c7_connected_reply_witness :
    drainLoopF (fun _ => 0) (([99] ++ 58 :: connectedTok).length + 3) ⟨3, [5], []⟩
        (ClientC.mk 5 []) [] (([99] ++ 58 :: connectedTok) ++ [13, 10]) =
      some ⟨⟨3, [5], []⟩, [], [], [(5, [51, 13, 10], 0)]⟩ := by
  have h := c7_connected_reply (fun _ => 0) ⟨3, [5], []⟩ (ClientC.mk 5 []) [] [99]
    (by decide) (by decide) (by decide) (by decide) (by decide) (by decide)
  simpa [intDecRepr, decRepr, decReprAux] using h

/-- Claim C7 (counterexample): the 126-byte payload of 115 a-bytes, a
colon and the connected token has content after its first colon exactly
equal to the token, yet the server broadcasts the (truncated) frame
instead of replying with the live count: the snprintf truncation to 127
bytes cuts the trailing LF, the rewritten NUL then cuts the token's last
byte, and the strncmp comparison fails. -/
theorem c7_counterexample :
    (58 : Nat) ∉ List.replicate 115 97
    ∧ (List.replicate 115 97 ++ 58 :: connectedTok).drop (115 + 1) = connectedTok
    ∧ drainLoopF (fun _ => 0) 129 ⟨1, [5], []⟩ (ClientC.mk 5 []) []
        ((List.replicate 115 97 ++ 58 :: connectedTok) ++ [13, 10]) =
      some ⟨⟨1, [5], []⟩, [],
        [(List.replicate 115 97 ++ 58 :: connectedTok) ++ [13]],
        [(5, ((List.replicate 115 97 ++ 58 :: connectedTok) ++ [13]) ++ [13, 10], 0)]⟩ := by
  refine ⟨by decide, by decide, by decide⟩

/-!  Per-client pass: peer-closed handling (C3) and loop termination (C4). -/

/-- Claim C3 (counterexample): client 5 has the complete frame hello-CRLF
buffered (get_message would pop it) and its read reports peer-closed;
the pass removes the connection with no display and no send — the
buffered complete frame is never extracted or processed, contradicting
drain-then-remove. -/
theorem c3_counterexample :
    clientPass (fun _ => ReadEv.closed) (fun _ => 0) ⟨1, [5], []⟩
        (ClientC.mk 5 [104, 101, 108, 108, 111, 13, 10]) [] =
      ⟨⟨0, [], [5]⟩, ClientC.mk 5 [104, 101, 108, 108, 111, 13, 10], [], [], true⟩
    ∧ get_message [104, 101, 108, 108, 111, 13, 10] =
        some ([104, 101, 108, 108, 111, 13, 10], []) := by
  refine ⟨by decide, by decide⟩

/-- Claim C3 (amended): whenever a read from a client reports
peer-closed, the server removes the connection immediately — the drain
loop is skipped entirely, so no buffered frame is extracted, displayed
or broadcast, and the buffer is discarded with the connection. -/
theorem c3_peer_closed_no_drain (rd : Nat → ReadEv) (wr : Nat → Nat) (st : FdSt)
    (c : ClientC) (rest : List ClientC)
    (hrd : rd c.sock_fd = ReadEv.closed) (hop : c.sock_fd ∉ st.closedL) :
    clientPass rd wr st c rest = ⟨_remove_client st c.sock_fd, c, [], [], true⟩ := by
  by_cases hb : BUF_SIZE ≤ c.buf.length
  · simp [clientPass, hop, hrd, read_from_socket, hb]
  · simp [clientPass, hop, hrd, read_from_socket, hb]

/-- Witness for claim C3 (amended). -/
theorem c3_peer_closed_no_drain_witness :
    clientPass (fun _ => ReadEv.closed) (fun _ => 0) ⟨1, [5], []⟩
        (ClientC.mk 5 [104, 13, 10]) [] =
      ⟨_remove_client ⟨1, [5], []⟩ 5, ClientC.mk 5 [104, 13, 10], [], [], true⟩ :=
  c3_peer_closed_no_drain (fun _ => ReadEv.closed) (fun _ => 0) ⟨1, [5], []⟩
    (ClientC.mk 5 [104, 13, 10]) [] rfl (by decide)

/-- Claim C4 (code bug): with a single registered client whose read
reports peer-closed, the per-client walk never terminates: the
disconnect branch calls _remove_client (closing the descriptor) but does
not advance the cursor and does not unlink the node, so the same node is
revisited forever — the revisit's read(2) on the closed descriptor fails,
is treated as another disconnect, and the count is decremented again on
every lap.  For every fuel the walk returns none. -/
theorem c4_disconnect_never_terminates :
    ∀ (fuel : Nat) (st : FdSt) (disp : List (List Nat)) (sends : List Send),
      processLoop (fun _ => ReadEv.closed) (fun _ => 0) (fun _ => true) fuel st
        [ClientC.mk 5 []] disp sends = none := by
  intro fuel
  induction fuel with
  | zero => intro st disp sends; rfl
  | succ f ih =>
    intro st disp sends
    have hpass : clientPass (fun _ => ReadEv.closed) (fun _ => 0) st
        (ClientC.mk 5 []) [] = ⟨_remove_client st 5, ClientC.mk 5 [], [], [], true⟩ := by
      by_cases hc : (5 : Nat) ∈ st.closedL
      · simp [clientPass, hc, read_from_socket, BUF_SIZE]
      · simp [clientPass, hc, read_from_socket, BUF_SIZE]
    simp only [processLoop, hpass, if_true, List.append_nil]
    exact ih (_remove_client st 5) disp sends

/-!  Registry removal is not atomic (C2). -/

/-- Claim C2 (code bug): the reachable transition accept-then-failed-id-
send (the peer closes before the id write lands) leaves the server in a
state where descriptor 5 is still a member of the clients linked list
but is no longer in the watched set: _remove_client from server.c only
clears the descriptor, closes it and decrements the count — the
unlink-and-free remove_client of chat_helpers.c is never called by the
event loop, so list membership and watch-set membership come apart. -/
theorem c2_removal_not_atomic :
    (5 : Nat) ∈ ((acceptStep (fun _ => 2) top0 5).1).clients.map ClientC.sock_fd
    ∧ (5 : Nat) ∉ ((acceptStep (fun _ => 2) top0 5).1).st.fds
    ∧ ¬ memberIff (acceptStep (fun _ => 2) top0 5).1 := by
  refine ⟨by decide, by decide, ?_⟩
  intro h
  have h2 := (h 5).mp (by decide)
  revert h2
  decide

/-!  Monotonic id assignment (C8). -/

theorem acceptStep_fields (wr : Nat → Nat) (t : TopSt) (fd : Nat) :
    ((acceptStep wr t fd).1).client_id = t.client_id + 1
    ∧ ((acceptStep wr t fd).1).assigned = t.assigned ++ [t.client_id + 1]
    ∧ ((acceptStep wr t fd).1).idSends =
        t.idSends ++ [decRepr (t.client_id + 1) ++ [13, 10]] := by
  simp only [acceptStep, _send_client_id]
  split_ifs <;> simp

theorem runTrace_inv (wr : Nat → Nat) : ∀ (tr : List TEv) (t : TopSt),
    t.assigned = List.range' 1 t.client_id →
    t.idSends = t.assigned.map (fun i => decRepr i ++ [13, 10]) →
    (runTrace wr tr t).assigned = List.range' 1 (runTrace wr tr t).client_id
    ∧ (runTrace wr tr t).idSends =
        (runTrace wr tr t).assigned.map (fun i => decRepr i ++ [13, 10])
  | [], _, h1, h2 => ⟨h1, h2⟩
  | TEv.accept fd :: evs, t, h1, h2 => by
    have hf := acceptStep_fields wr t fd
    have h1' : ((acceptStep wr t fd).1).assigned =
        List.range' 1 ((acceptStep wr t fd).1).client_id := by
      rw [hf.2.1, hf.1, h1, List.range'_concat]
      simp [Nat.add_comm]
    have h2' : ((acceptStep wr t fd).1).idSends =
        ((acceptStep wr t fd).1).assigned.map (fun i => decRepr i ++ [13, 10]) := by
      rw [hf.2.2, hf.2.1, h2, List.map_append]
      simp
    simp only [runTrace]
    split_ifs with hc
    · exact ⟨h1', h2'⟩
    · exact runTrace_inv wr evs _ h1' h2'
  | TEv.depart fd :: evs, t, h1, h2 => by
    simp only [runTrace]
    exact runTrace_inv wr evs _ h1 h2

/-- Claim C8: over any sequence of registry events (accepted connections
with any id-write outcome, interleaved with disconnect removals), the
ids assigned to the successive accepted connections are exactly
1, 2, 3, ... in acceptance order — the frame written to the k-th
accepted connection carries the decimal text of k — and no id is ever
assigned twice. -/
theorem c8_monotonic_ids (wr : Nat → Nat) (tr : List TEv) :
    (runTrace wr tr top0).assigned = List.range' 1 (runTrace wr tr top0).client_id
    ∧ (runTrace wr tr top0).idSends =
        (runTrace wr tr top0).assigned.map (fun i => decRepr i ++ [13, 10])
    ∧ (runTrace wr tr top0).assigned.Nodup := by
  have h := runTrace_inv wr tr top0 rfl rfl
  refine ⟨h.1, h.2, ?_⟩
  rw [h.1]
  exact List.nodup_range' _ _

/-!  Client id handshake (C9). -/

/-- Claim C9 (counterexample): the non-numeric first frame hello does
not make the client exit quietly; strtol returns 0 without touching
errno, so the handshake proceeds into the chat loop with id 0. -/
theorem c9_counterexample :
    client_handshake (RecvOut.msgIn [104, 101, 108, 108, 111]) = Handshake.proceed 0
    ∧ Handshake.proceed 0 ≠ Handshake.quiet := by
  refine ⟨by decide, by decide⟩

/-- Claim C9 (amended): a peer disconnect before the id arrives is a
quiet exit (return 0) and a read error is an error exit; any first frame
whose strtol conversion stays in range — including a non-numeric frame,
which converts to 0 — makes the client proceed with the converted value,
and only an out-of-range numeric frame (ERANGE) is rejected, with an
error exit rather than a quiet one. -/
theorem c9_handshake_amended :
    client_handshake RecvOut.closed = Handshake.quiet
    ∧ client_handshake RecvOut.rerr = Handshake.errorExit
    ∧ (∀ m : List Nat, client_handshake (RecvOut.msgIn m) =
        if (strtol10 m).2 then Handshake.errorExit
        else Handshake.proceed (strtol10 m).1) := by
  refine ⟨by decide, by decide, ?_⟩
  intro m
  unfold client_handshake _get_client_id
  rcases h : strtol10 m with ⟨v, er⟩
  cases er
  · simp [h]
  · simp [h]

/-!  Client receive loop can spin forever (C10). -/

theorem recvPop_nil_spin : ∀ (fuel : Nat), recvPopLoopF fuel 2 [] = none
  | 0 => rfl
  | fuel + 1 => by
    have h : get_message [] = none := rfl
    simp only [recvPopLoopF, h]
    norm_num
    exact recvPop_nil_spin fuel

/-- Claim C10 (code bug): when the peer delivers exactly the degenerate
frame CRLF and the session stays open, _recieve_message never
terminates: the first loop reports a complete frame, the retry loop pops
the 2-byte message, frees it and continues, and from then on get_message
keeps failing while the loop body never reads again — the loop spins
with unchanged state.  For every fuel the run returns none. -/
theorem c10_degenerate_frame_spin :
    ∀ (fuel : Nat), recieve_message [ReadEv.chunk [13, 10]] fuel = none := by
  have hready : recvReadLoop [ReadEv.chunk [13, 10]] [] = FirstOut.ready [13, 10] := by
    decide
  intro fuel
  unfold recieve_message
  rw [hready]
  cases fuel with
  | zero => rfl
  | succ f =>
    show recvPopLoopF (f + 1) (-1) [13, 10] = none
    have hmsg : get_message [13, 10] = some ([13, 10], []) := by decide
    have hstep : recvPopLoopF (f + 1) (-1) [13, 10] = recvPopLoopF f 2 [] := by
      simp only [recvPopLoopF, hmsg]
      norm_num [MAX_PROTO_MSG]
    rw [hstep]
    exact recvPop_nil_spin f

/-- Witness for claim C4 at fuel 2 from a fresh descriptor state. -/
theorem c4_disconnect_never_terminates_witness :
    processLoop (fun _ => ReadEv.closed) (fun _ => 0) (fun _ => true) 2 ⟨1, [5], []⟩
      [ClientC.mk 5 []] [] [] = none :=
  c4_disconnect_never_terminates 2 ⟨1, [5], []⟩ [] []

/-- Witness for claim C8: accept, disconnect, accept again — the second
accepted connection still gets id 2. -/
theorem c8_monotonic_ids_witness :
    (runTrace (fun _ => 0) [TEv.accept 7, TEv.depart 7, TEv.accept 8] top0).assigned =
      List.range' 1
        (runTrace (fun _ => 0) [TEv.accept 7, TEv.depart 7, TEv.accept 8] top0).client_id
    ∧ (runTrace (fun _ => 0) [TEv.accept 7, TEv.depart 7, TEv.accept 8] top0).idSends =
        (runTrace (fun _ => 0) [TEv.accept 7, TEv.depart 7, TEv.accept 8]
          top0).assigned.map (fun i => decRepr i ++ [13, 10])
    ∧ (runTrace (fun _ => 0) [TEv.accept 7, TEv.depart 7, TEv.accept 8]
        top0).assigned.Nodup :=
  c8_monotonic_ids (fun _ => 0) [TEv.accept 7, TEv.depart 7, TEv.accept 8]

/-- Witness for claim C9 (amended) at the in-range numeric first frame 75. -/
theorem c9_handshake_amended_witness :
    client_handshake (RecvOut.msgIn [55, 53]) =
      (if (strtol10 [55, 53]).2 then Handshake.errorExit
       else Handshake.proceed (strtol10 [55, 53]).1) :=
  c9_handshake_amended.2.2 [55, 53]

/-- Witness for claim C10 at fuel 5. -/
theorem c10_degenerate_frame_spin_witness :
    recieve_message [ReadEv.chunk [13, 10]] 5 = none :=
  c10_degenerate_frame_spin 5

end LinuxShellChat
